import Mathlib

/-!
Shallow embedding of `audioplayer.go` (package `audioplayer`).

The Go program is a playback lifecycle controller around an external
`ffmpeg` decoder process and an `oto` audio output context.  External
effects (process launch/kill/wait, oto context and player creation,
`context.WithCancel` tokens) are modelled explicitly: a `World` record
tracks every process ever launched (with its command line and how many
times it was killed and waited on), every oto context created and closed,
every cancel token created, fired and invoked, and every player created.
Fallible externals (`StdoutPipe`, `cmd.Start`, `oto.NewContext`) are
driven by an `Env` of success flags, so every error path of `Start` is
reachable in the model.  The mutex serialises `Start`/`Stop`/`Close`, so
they are modelled as atomic state transformers.
-/

namespace Audioplayer

/-- Decimal characters of a natural number, most significant digit first
(the rendering used by Go `strconv.Itoa` / `FormatFloat`); `fuel`-driven
recursion, with enough fuel the result is the full decimal expansion. -/
def natCharsAux : Nat → Nat → List Char
  | _, 0 => []
  | n, fuel + 1 =>
    if n < 10 then [Char.ofNat (48 + n)]
    else natCharsAux (n / 10) fuel ++ [Char.ofNat (48 + n % 10)]

/-- Decimal characters of a natural number. -/
def natChars (n : Nat) : List Char := natCharsAux n (n + 1)

/-- Decimal rendering of an integer, as Go `strconv.Itoa` produces it. -/
def intDecChars (m : Int) : List Char :=
  (if m < 0 then ['-'] else []) ++ natChars m.natAbs

/-- Go `strconv.Itoa`. -/
def itoa (m : Int) : String := String.mk (intDecChars m)

/-- A `float64` speed value that is an exact decimal, represented in
scaled form: the value is `num / 10 ^ exp`.  The program's speed settings
(e.g. 1.5, 0.75) are of this shape; on them Go
`strconv.FormatFloat (·, 'f', -1, 64)` prints the minimal exact decimal. -/
structure Float64Dec where
  num : Int
  exp : Nat
deriving DecidableEq, Repr

/-- The rational value denoted by a `Float64Dec`. -/
def Float64Dec.val (sp : Float64Dec) : ℚ := (sp.num : ℚ) / 10 ^ sp.exp

/-- Strip factors of ten shared by the mantissa and the scale: the loop at
the heart of minimal decimal formatting (trailing fractional zeros). -/
def trimZeros : Int → Nat → Int × Nat
  | m, 0 => (m, 0)
  | m, e + 1 => if m % 10 = 0 then trimZeros (m / 10) e else (m, e + 1)

/-- The lowest `e` decimal digits of `n`, most significant first (the
fractional part of a fixed-point rendering, left-padded with zeros). -/
def fracChars : Nat → Nat → List Char
  | _, 0 => []
  | n, e + 1 => fracChars (n / 10) e ++ [Char.ofNat (48 + n % 10)]

/-- Characters of Go `strconv.FormatFloat (f, 'f', -1, 64)` on an exact
decimal value: no exponent, shortest form, trailing fractional zeros
trimmed, bare integer when the fraction is empty. -/
def formatFloatChars (sp : Float64Dec) : List Char :=
  let p := trimZeros sp.num sp.exp
  if p.2 = 0 then intDecChars p.1
  else
    (if p.1 < 0 then ['-'] else []) ++ natChars (p.1.natAbs / 10 ^ p.2)
      ++ ['.'] ++ fracChars p.1.natAbs p.2

/-- Go `strconv.FormatFloat (f, 'f', -1, 64)` on an exact decimal value. -/
def formatFloat (sp : Float64Dec) : String := String.mk (formatFloatChars sp)

/-- A launched decoder process: its command line and how many times it has
been killed and waited on (reaped). -/
structure ProcRecord where
  exe : String
  args : List String
  killed : Nat
  waited : Nat
deriving DecidableEq, Repr

/-- The external world: every effect the controller performs on processes,
oto contexts, oto players and cancel tokens.  Processes, contexts, players
and cancel tokens are identified by the order of their creation. -/
structure World where
  procs : List ProcRecord
  ctxCreated : Nat
  closedCtxs : List Nat
  cancelCreated : Nat
  firedCancels : List Nat
  cancelCalls : List Nat
  playersCreated : Nat
deriving DecidableEq, Repr

/-- The world before any effect. -/
def World.init : World :=
  { procs := [], ctxCreated := 0, closedCtxs := [], cancelCreated := 0,
    firedCancels := [], cancelCalls := [], playersCreated := 0 }

/-- Invoke cancel token `c`: the call is logged, and the token is fired
(firing an already-fired token changes nothing further). -/
def fireCancel (c : Nat) (w : World) : World :=
  { w with
    cancelCalls := w.cancelCalls ++ [c]
    firedCancels :=
      if c ∈ w.firedCancels then w.firedCancels else w.firedCancels ++ [c] }

/-- Kill and wait on the process at index `p` (Go
`cmd.Process.Kill(); cmd.Wait()`). -/
def reapAt : List ProcRecord → Nat → List ProcRecord
  | [], _ => []
  | r :: rs, 0 => { r with killed := r.killed + 1, waited := r.waited + 1 } :: rs
  | r :: rs, n + 1 => r :: reapAt rs n

/-- Mirror of the Go `AudioPlayer` struct.  Handles held in fields are the
world identifiers of the corresponding resources; `nil` pointers are
`none`.  The mutex and wait group are not state: operations are atomic and
the copy goroutine has exited whenever `wg.Wait()` returns. -/
structure AudioPlayer where
  cancelPlayback : Option Nat
  ffmpegCmd : Option Nat
  player : Option Nat
  context : Option Nat
  audioFile : String
  speed : Float64Dec
  startTime : Int
deriving DecidableEq, Repr

/-- Go `NewAudioPlayer`. -/
def NewAudioPlayer (audioFile : String) (speed : Float64Dec) (startTime : Int) :
    AudioPlayer :=
  { cancelPlayback := none, ffmpegCmd := none, player := none, context := none,
    audioFile := audioFile, speed := speed, startTime := startTime }

/-- Outcomes of the fallible externals `Start` uses, plus the global
`ffmpegPath` variable. -/
structure Env where
  pipeOk : Bool
  startOk : Bool
  newContextOk : Bool
  ffmpegPath : String
deriving DecidableEq, Repr

/-- The errors `Start` can return: wrapped pipe-creation and
process-start failures (LaunchError) and oto context failure
(DeviceError). -/
inductive StartError where
  | launchPipe
  | launchStart
  | device
deriving DecidableEq, Repr

/-- Go `Stop`: invoke the cancel function if present, wait for the copy
goroutine, kill and reap the ffmpeg process and clear its handle, close
the player and clear its handle.  The cancel function is not cleared. -/
def Stop (ap : AudioPlayer) (w : World) : AudioPlayer × World :=
  let w :=
    match ap.cancelPlayback with
    | some c => fireCancel c w
    | none => w
  let w :=
    match ap.ffmpegCmd with
    | some p => { w with procs := reapAt w.procs p }
    | none => w
  let ap :=
    match ap.ffmpegCmd with
    | some _ => { ap with ffmpegCmd := none }
    | none => ap
  let ap :=
    match ap.player with
    | some _ => { ap with player := none }
    | none => ap
  (ap, w)

/-- Go `Close`: `Stop`, then close the oto context if present and clear
its handle. -/
def Close (ap : AudioPlayer) (w : World) : AudioPlayer × World :=
  let s := Stop ap w
  match s.1.context with
  | some cx =>
    ({ s.1 with context := none }, { s.2 with closedCtxs := s.2.closedCtxs ++ [cx] })
  | none => s

/-- The exact ffmpeg argument list built by `Start` (`exec.Command`
arguments after the executable path). -/
def ffmpegArgs (ap : AudioPlayer) : List String :=
  ["-ss", itoa ap.startTime,
   "-i", ap.audioFile,
   "-filter:a", "atempo=" ++ formatFloat ap.speed,
   "-f", "s16le",
   "-ar", "44100",
   "-ac", "2",
   "pipe:1"]

/-- Body of Go `Start` after the initial active-session check: create the
stdout pipe, create and store a cancel function, start the ffmpeg process,
create the oto context if there is none, create a player, record the
session handles.  Each failure returns immediately with the state mutated
so far. -/
def startLocked (env : Env) (ap : AudioPlayer) (w : World) :
    Option StartError × AudioPlayer × World :=
  if !env.pipeOk then (some .launchPipe, ap, w)
  else
    let c := w.cancelCreated
    let w := { w with cancelCreated := w.cancelCreated + 1 }
    let ap := { ap with cancelPlayback := some c }
    if !env.startOk then (some .launchStart, ap, w)
    else
      let p := w.procs.length
      let w := { w with procs := w.procs ++
        [{ exe := env.ffmpegPath, args := ffmpegArgs ap, killed := 0, waited := 0 }] }
      match ap.context with
      | none =>
        if !env.newContextOk then (some .device, ap, w)
        else
          let cx := w.ctxCreated
          let w := { w with ctxCreated := w.ctxCreated + 1 }
          let ap := { ap with context := some cx }
          let pl := w.playersCreated
          let w := { w with playersCreated := w.playersCreated + 1 }
          (none, { ap with player := some pl, ffmpegCmd := some p }, w)
      | some _ =>
        let pl := w.playersCreated
        let w := { w with playersCreated := w.playersCreated + 1 }
        (none, { ap with player := some pl, ffmpegCmd := some p }, w)

/-- Go `Start`: under the lock, if an ffmpeg process handle is present,
drop the lock, call `Close` (the code calls `Close`, not `Stop`), retake
the lock, then run the session setup. -/
def Start (env : Env) (ap : AudioPlayer) (w : World) :
    Option StartError × AudioPlayer × World :=
  if ap.ffmpegCmd.isSome then
    startLocked env (Close ap w).1 (Close ap w).2
  else startLocked env ap w

/-- One externally invokable operation on the controller. -/
inductive Op where
  | start (env : Env)
  | stop
  | close
deriving DecidableEq, Repr

/-- Apply one operation (the error returned by `Start` is dropped: the
caller sees it, the controller state does not depend on it further). -/
def runOp (s : AudioPlayer × World) : Op → AudioPlayer × World
  | .start env => (Start env s.1 s.2).2
  | .stop => Stop s.1 s.2
  | .close => Close s.1 s.2

/-- Run a sequence of operations. -/
def run (ops : List Op) (s : AudioPlayer × World) : AudioPlayer × World :=
  ops.foldl runOp s

/-- Model of the cancellable stream adapter `readerCtx.Read`: if the
cancel token has fired (`ctx.Err() != nil`), return `(0, the context
error)` without touching the underlying reader; otherwise delegate to the
underlying reader (given as a state machine over an arbitrary state type)
and return its result unchanged.  `Bool` errors-as-values: the result is
`(bytes, error?)` paired with the underlying reader's next state. -/
inductive ReadErr where
  | contextCanceled
  | underlying (code : Nat)
deriving DecidableEq, Repr

def readerCtxRead {σ : Type} (rd : σ → (Nat × Option ReadErr) × σ)
    (ctxFired : Bool) (s : σ) : (Nat × Option ReadErr) × σ :=
  if ctxFired then ((0, some .contextCanceled), s)
  else rd s

/-- All externals succeed; ffmpeg resolved on the PATH. -/
def okEnv : Env :=
  { pipeOk := true, startOk := true, newContextOk := true, ffmpegPath := "ffmpeg" }

/-- Process start (`cmd.Start()`) fails; everything else succeeds. -/
def envStartFail : Env := { okEnv with startOk := false }

/-- `oto.NewContext` fails; pipe creation and process start succeed. -/
def envDevFail : Env := { okEnv with newContextOk := false }

/-- A concrete freshly constructed controller (speed 1.5, offset 7s). -/
def ap0 : AudioPlayer := NewAudioPlayer "song.mp3" ⟨15, 1⟩ 7

/-- `n` strictly alternating Start/Stop cycles. -/
def startStopCycles (env : Env) : Nat → List Op
  | 0 => []
  | n + 1 => Op.start env :: Op.stop :: startStopCycles env n

/-- The first launched process was never killed nor reaped, and the
controller does not hold a handle to it, so no operation can ever reap
it. -/
def LeakInv (s : AudioPlayer × World) : Prop :=
  (∃ r, s.2.procs.head? = some r ∧ r.killed = 0 ∧ r.waited = 0) ∧
  s.1.ffmpegCmd ≠ some 0

/-- The speed lies outside the documented valid range [0.5, 2.0]. -/
def outOfRange (sp : Float64Dec) : Prop :=
  sp.val < 1 / 2 ∨ 2 < sp.val

/-- State of a controller between cycles: idle, holding context 0, with
exactly one context creation performed so far. -/
def CycleInv (s : AudioPlayer × World) : Prop :=
  s.1.ffmpegCmd = none ∧ s.1.player = none ∧ s.1.context = some 0 ∧
  s.2.ctxCreated = 1

/-! ### Theorems -/

/-- Helper: `Stop` clears the process and player handles and leaves the
context, configuration and cancellation function as they were. -/
theorem Stop_fst (ap : AudioPlayer) (w : World) :
    (Stop ap w).1 = { ap with ffmpegCmd := none, player := none } := by
  obtain ⟨cp, fc, pl, cx, af, sp, st⟩ := ap
  cases cp <;> cases fc <;> cases pl <;> rfl

/-- Helper: no path of `startLocked` closes an oto context. -/
theorem startLocked_closedCtxs (env : Env) (ap : AudioPlayer) (w : World) :
    (startLocked env ap w).2.2.closedCtxs = w.closedCtxs := by
  unfold startLocked
  cases env.pipeOk <;> cases env.startOk <;> cases hcx : ap.context <;>
    cases env.newContextOk <;> simp [hcx]

/-- Helper: `Close` on a controller holding a context closes exactly that
context and clears the handle. -/
theorem Close_of_context (ap : AudioPlayer) (w : World) (cx : Nat)
    (h : ap.context = some cx) :
    (Close ap w).1 = { ap with ffmpegCmd := none, player := none, context := none } ∧
    (Close ap w).2.closedCtxs = (Stop ap w).2.closedCtxs ++ [cx] := by
  have h1 := Stop_fst ap w
  simp [Close, h1, h]

/-- Helper: a controller whose process and player handles are clear is
left unchanged by clearing them. -/
theorem update_none_eq_self (ap : AudioPlayer) (hf : ap.ffmpegCmd = none)
    (hp : ap.player = none) :
    { ap with ffmpegCmd := none, player := none } = ap := by
  obtain ⟨cp, fc, pl, cx, af, sp, st⟩ := ap
  simp only at hf hp
  subst hf; subst hp
  rfl

/-- Helper: after `Close`, the process, player and context handles are
all clear. -/
theorem Close_fst_session (ap : AudioPlayer) (w : World) :
    (Close ap w).1.ffmpegCmd = none ∧ (Close ap w).1.player = none ∧
    (Close ap w).1.context = none ∨
    (Close ap w).1 = (Stop ap w).1 ∧ ap.context = none := by
  cases hcx : ap.context
  · right
    have h1 := Stop_fst ap w
    simp [Close, h1, hcx]
  · left
    have h1 := Stop_fst ap w
    simp [Close, h1, hcx]

/-- Helper: every error path of `startLocked` leaves the process and
player handles exactly as they were. -/
theorem startLocked_err (env : Env) (ap : AudioPlayer) (w : World) (e : StartError)
    (h : (startLocked env ap w).1 = some e) :
    (startLocked env ap w).2.1.ffmpegCmd = ap.ffmpegCmd ∧
    (startLocked env ap w).2.1.player = ap.player := by
  obtain ⟨ep, es, ec, ef⟩ := env
  unfold startLocked at h ⊢
  cases ep <;> cases es <;> cases hcx : ap.context <;> cases ec <;>
    simp [hcx] at h ⊢

/-- C1 counterexample: starting while a session is active does not leave
the output context intact.  From a fresh controller, the first `Start`
creates context 0; a second `Start` (session still active) closes
context 0 — although the caller never invoked `Close` — and the
controller ends up holding a different context 1. -/
theorem c1_counterexample :
    (run [.start okEnv] (ap0, World.init)).1.context = some 0 ∧
    (run [.start okEnv, .start okEnv] (ap0, World.init)).1.context = some 1 ∧
    (run [.start okEnv, .start okEnv] (ap0, World.init)).2.closedCtxs = [0] :=
  ⟨rfl, rfl, rfl⟩

/-- C1 (amended): the output context survives `Stop` calls, but `Start`
while a session is active performs a full `Close` of the prior session —
not a `Stop` — so it closes the shared output context; the new session
then lazily creates a fresh one. -/
theorem c1_start_while_active_closes_context (env : Env) (ap : AudioPlayer)
    (w : World) :
    (Stop ap w).1.context = ap.context ∧
    (ap.ffmpegCmd.isSome = true →
      Start env ap w = startLocked env (Close ap w).1 (Close ap w).2 ∧
      ∀ cx, ap.context = some cx → cx ∈ (Start env ap w).2.2.closedCtxs) := by
  refine ⟨by rw [Stop_fst], fun h => ⟨by simp [Start, h], fun cx hcx => ?_⟩⟩
  have h2 := (Close_of_context ap w cx hcx).2
  simp [Start, h, startLocked_closedCtxs, h2]

/-- Witness for C1 (amended) on a concrete active session holding
context 0. -/
theorem c1_start_while_active_closes_context_witness :
    (Stop (run [Op.start okEnv] (ap0, World.init)).1
        (run [Op.start okEnv] (ap0, World.init)).2).1.context
      = (run [Op.start okEnv] (ap0, World.init)).1.context ∧
    0 ∈ (Start okEnv (run [Op.start okEnv] (ap0, World.init)).1
        (run [Op.start okEnv] (ap0, World.init)).2).2.2.closedCtxs := by
  have h := c1_start_while_active_closes_context okEnv
    (run [Op.start okEnv] (ap0, World.init)).1
    (run [Op.start okEnv] (ap0, World.init)).2
  exact ⟨h.1, (h.2 rfl).2 0 rfl⟩

/-- C2 counterexample: a `Start` that fails at process start does retain
partial session state: the cancellation handle created during the failed
attempt stays stored in the controller. -/
theorem c2_counterexample :
    (Start envStartFail ap0 World.init).1 = some .launchStart ∧
    (Start envStartFail ap0 World.init).2.1.cancelPlayback = some 0 :=
  ⟨rfl, rfl⟩

/-- C2 (amended): a failed `Start` (any of the three error paths) leaves
no decoder-process handle and no player, and a subsequent `Stop` leaves
the controller state unchanged; the cancellation handle created during
the attempt, however, is retained when the failure occurs after pipe
creation.  The hypothesis `hwf` (a player handle is only held while a
process handle is) holds in every reachable state. -/
theorem c2_failed_start_leaves_no_session (env : Env) (ap : AudioPlayer)
    (w : World) (hwf : ap.player.isSome = true → ap.ffmpegCmd.isSome = true)
    (e : StartError) (herr : (Start env ap w).1 = some e) :
    (Start env ap w).2.1.ffmpegCmd = none ∧
    (Start env ap w).2.1.player = none ∧
    ∀ w', (Stop (Start env ap w).2.1 w').1 = (Start env ap w).2.1 := by
  by_cases hA : ap.ffmpegCmd.isSome = true
  · simp only [Start, hA, if_true] at herr ⊢
    have hc := Close_fst_session ap w
    have hcf : (Close ap w).1.ffmpegCmd = none ∧ (Close ap w).1.player = none := by
      rcases hc with ⟨h1, h2, _⟩ | ⟨h1, _⟩
      · exact ⟨h1, h2⟩
      · rw [h1, Stop_fst]; exact ⟨rfl, rfl⟩
    have he := startLocked_err env (Close ap w).1 (Close ap w).2 e herr
    refine ⟨he.1.trans hcf.1, he.2.trans hcf.2, fun w' => ?_⟩
    rw [Stop_fst, update_none_eq_self _ (he.1.trans hcf.1) (he.2.trans hcf.2)]
  · have hf : ap.ffmpegCmd = none := by
      cases hff : ap.ffmpegCmd
      · rfl
      · rw [hff] at hA; simp at hA
    have hp : ap.player = none := by
      cases hpp : ap.player
      · rfl
      · exact absurd (hwf (by rw [hpp]; rfl)) (by simp [hf])
    simp only [Start, hf, Option.isSome_none, Bool.false_eq_true, if_false] at herr ⊢
    have he := startLocked_err env ap w e herr
    refine ⟨he.1.trans hf, he.2.trans hp, fun w' => ?_⟩
    rw [Stop_fst, update_none_eq_self _ (he.1.trans hf) (he.2.trans hp)]

/-- Witness for C2 (amended) at a concrete failing start. -/
theorem c2_failed_start_leaves_no_session_witness :
    (Start envStartFail ap0 World.init).2.1.ffmpegCmd = none ∧
    (Start envStartFail ap0 World.init).2.1.player = none ∧
    (Stop (Start envStartFail ap0 World.init).2.1 World.init).1
      = (Start envStartFail ap0 World.init).2.1 := by
  have h := c2_failed_start_leaves_no_session envStartFail ap0 World.init
    (by decide) StartError.launchStart rfl
  exact ⟨h.1, h.2.1, h.2.2 World.init⟩

/-- Helper: killing and reaping a process at a positive index leaves the
first launched process untouched. -/
theorem reapAt_head_succ (l : List ProcRecord) (n : Nat) :
    (reapAt l (n + 1)).head? = l.head? := by
  cases l <;> rfl

/-- Helper: appending a newly launched process does not change the head
of a nonempty process list. -/
theorem head_append_singleton {α : Type} (l : List α) (h : l ≠ []) (x : α) :
    (l ++ [x]).head? = l.head? := by
  cases l
  · exact absurd rfl h
  · rfl

/-- Helper: `Stop` preserves the leaked-process invariant. -/
theorem Stop_leakInv (ap : AudioPlayer) (w : World) (h : LeakInv (ap, w)) :
    LeakInv (Stop ap w) := by
  obtain ⟨⟨r, hr, hk, hw0⟩, hcmd⟩ := h
  refine ⟨⟨r, ?_, hk, hw0⟩, ?_⟩
  · show (Stop ap w).2.procs.head? = some r
    cases hfc : ap.ffmpegCmd with
    | none =>
      cases hcp : ap.cancelPlayback <;>
        simp [Stop, fireCancel, hcp, hfc] <;> exact hr
    | some p =>
      cases p with
      | zero => exact absurd (by rw [hfc]) hcmd
      | succ n =>
        cases hcp : ap.cancelPlayback <;>
          simp [Stop, fireCancel, hcp, hfc, reapAt_head_succ] <;> exact hr
  · rw [Stop_fst]
    simp

/-- Helper: `Close` does not change the process list beyond what its
inner `Stop` does. -/
theorem Close_procs_head (ap : AudioPlayer) (w : World) :
    (Close ap w).2.procs.head? = (Stop ap w).2.procs.head? := by
  unfold Close
  cases hcx : (Stop ap w).1.context <;> simp [hcx]

/-- Helper: after `Close` the process handle is clear. -/
theorem Close_ffmpeg_none (ap : AudioPlayer) (w : World) :
    (Close ap w).1.ffmpegCmd = none := by
  unfold Close
  cases hcx : ap.context <;> simp [hcx, Stop_fst]

/-- Helper: `Close` preserves the leaked-process invariant. -/
theorem Close_leakInv (ap : AudioPlayer) (w : World) (h : LeakInv (ap, w)) :
    LeakInv (Close ap w) := by
  obtain ⟨⟨r, hr, hk, hw0⟩, _⟩ := Stop_leakInv ap w h
  refine ⟨⟨r, ?_, hk, hw0⟩, ?_⟩
  · rw [Close_procs_head]
    exact hr
  · rw [Close_ffmpeg_none]
    simp

/-- Helper: when the controller holds no process handle, `startLocked`
preserves the leaked-process invariant: the first launched process stays
at the head of the list and the new process handle, if any, points at a
later launch. -/
theorem startLocked_leakInv (env : Env) (ap : AudioPlayer) (w : World)
    (hf : ap.ffmpegCmd = none)
    (hr0 : ∃ r, w.procs.head? = some r ∧ r.killed = 0 ∧ r.waited = 0) :
    LeakInv (startLocked env ap w).2 := by
  obtain ⟨r, hr, hk, hw0⟩ := hr0
  have hne : w.procs ≠ [] := by
    intro hnil
    rw [hnil] at hr
    simp at hr
  have hlen : w.procs.length ≠ 0 := fun h0 => hne (List.length_eq_zero.mp h0)
  obtain ⟨ep, es, ec, ef⟩ := env
  cases ep <;> cases es <;> cases hcx : ap.context <;> cases ec <;>
    simp [startLocked, LeakInv, hcx, hf, head_append_singleton w.procs hne,
      hlen] <;>
    exact ⟨r, hr, hk, hw0⟩

/-- Helper: `Start` preserves the leaked-process invariant. -/
theorem Start_leakInv (env : Env) (ap : AudioPlayer) (w : World)
    (h : LeakInv (ap, w)) : LeakInv (Start env ap w).2 := by
  by_cases hA : ap.ffmpegCmd.isSome = true
  · have hc := Close_leakInv ap w h
    have hres := startLocked_leakInv env (Close ap w).1 (Close ap w).2
      (Close_ffmpeg_none ap w) hc.1
    simpa [Start, hA] using hres
  · have hf : ap.ffmpegCmd = none := by
      cases hff : ap.ffmpegCmd
      · rfl
      · rw [hff] at hA; simp at hA
    have hres := startLocked_leakInv env ap w hf h.1
    simpa [Start, hf] using hres

/-- Helper: the leaked-process invariant is preserved by every sequence
of controller operations. -/
theorem run_leakInv (ops : List Op) (s : AudioPlayer × World)
    (h : LeakInv s) : LeakInv (run ops s) := by
  induction ops generalizing s with
  | nil => exact h
  | cons op ops ih =>
    apply ih
    cases op with
    | start env => exact Start_leakInv env s.1 s.2 h
    | stop => exact Stop_leakInv s.1 s.2 h
    | close => exact Close_leakInv s.1 s.2 h

/-- C3 (code bug): when `oto.NewContext` fails after the ffmpeg process
was already started, `Start` returns the device error without killing or
reaping the launched process, and its handle is discarded
(`ap.ffmpegCmd` stays `nil`), so no subsequent sequence of
`Start`/`Stop`/`Close` calls ever reaps it: the process is leaked,
contradicting the exactly-once termination-and-reap requirement. -/
theorem c3_device_failure_leaks_process :
    (Start envDevFail ap0 World.init).1 = some .device ∧
    (Start envDevFail ap0 World.init).2.1.ffmpegCmd = none ∧
    (Start envDevFail ap0 World.init).2.2.procs.map ProcRecord.killed = [0] ∧
    (Start envDevFail ap0 World.init).2.2.procs.map ProcRecord.waited = [0] ∧
    ∀ ops : List Op, ∃ r,
      (run ops (Start envDevFail ap0 World.init).2).2.procs.head? = some r ∧
      r.killed = 0 ∧ r.waited = 0 := by
  refine ⟨rfl, rfl, rfl, rfl, fun ops => ?_⟩
  have h0 : LeakInv (Start envDevFail ap0 World.init).2 := by
    refine ⟨⟨{ exe := "ffmpeg", args := ffmpegArgs ap0, killed := 0, waited := 0 },
      rfl, rfl, rfl⟩, by decide⟩
  exact (run_leakInv ops _ h0).1

/-- Helper: after `Close` the context handle is clear. -/
theorem Close_context_none (ap : AudioPlayer) (w : World) :
    (Close ap w).1.context = none := by
  unfold Close
  cases hcx : ap.context <;> simp [hcx, Stop_fst]

/-- Helper: with succeeding externals and no context present,
`startLocked` succeeds, storing a handle to the newly launched process
and to a freshly created context. -/
theorem startLocked_success_newctx (env : Env) (ap : AudioPlayer) (w : World)
    (hcx : ap.context = none) (hp : env.pipeOk = true) (hs : env.startOk = true)
    (hc : env.newContextOk = true) :
    (startLocked env ap w).1 = none ∧
    (startLocked env ap w).2.1.ffmpegCmd = some w.procs.length ∧
    (startLocked env ap w).2.1.context = some w.ctxCreated ∧
    (startLocked env ap w).2.2.ctxCreated = w.ctxCreated + 1 := by
  obtain ⟨ep, es, ec, ef⟩ := env
  simp only at hp hs hc
  subst hp; subst hs; subst hc
  simp [startLocked, hcx]

/-- C9 counterexample: `Start` after `Close` does not fail.  Running
Start, Close, then Start again on a fresh controller: the final Start
returns no error, launches a second process (handle 1) and recreates a
context (context 1) — a new playback session begins. -/
theorem c9_counterexample :
    (Start okEnv (run [.start okEnv, .close] (ap0, World.init)).1
        (run [.start okEnv, .close] (ap0, World.init)).2).1 = none ∧
    (Start okEnv (run [.start okEnv, .close] (ap0, World.init)).1
        (run [.start okEnv, .close] (ap0, World.init)).2).2.1.ffmpegCmd = some 1 ∧
    (Start okEnv (run [.start okEnv, .close] (ap0, World.init)).1
        (run [.start okEnv, .close] (ap0, World.init)).2).2.1.context = some 1 :=
  ⟨rfl, rfl, rfl⟩

/-- C9 (amended): `Close` is not a terminal state: it resets the
controller (no session handles, no context); a subsequent `Start` does
not fail on account of the `Close` — with succeeding externals it
returns no error, lazily creates a fresh output context and starts a new
session. -/
theorem c9_start_after_close_succeeds (env : Env) (ap : AudioPlayer)
    (w : World) (hp : env.pipeOk = true) (hs : env.startOk = true)
    (hc : env.newContextOk = true) :
    (Close ap w).1.ffmpegCmd = none ∧ (Close ap w).1.context = none ∧
    (Start env (Close ap w).1 (Close ap w).2).1 = none ∧
    (Start env (Close ap w).1 (Close ap w).2).2.1.ffmpegCmd
      = some (Close ap w).2.procs.length ∧
    (Start env (Close ap w).1 (Close ap w).2).2.1.context
      = some (Close ap w).2.ctxCreated := by
  have h1 := Close_ffmpeg_none ap w
  have h2 := Close_context_none ap w
  have hsl := startLocked_success_newctx env (Close ap w).1 (Close ap w).2 h2 hp hs hc
  have hstart : Start env (Close ap w).1 (Close ap w).2
      = startLocked env (Close ap w).1 (Close ap w).2 := by
    simp [Start, h1]
  exact ⟨h1, h2, by rw [hstart]; exact hsl.1, by rw [hstart]; exact hsl.2.1,
    by rw [hstart]; exact hsl.2.2.1⟩

/-- Witness for C9 (amended) on a concrete closed controller. -/
theorem c9_start_after_close_succeeds_witness :
    (Start okEnv (Close ap0 World.init).1 (Close ap0 World.init).2).1 = none ∧
    (Start okEnv (Close ap0 World.init).1 (Close ap0 World.init).2).2.1.ffmpegCmd
      = some 0 := by
  have h := c9_start_after_close_succeeds okEnv ap0 World.init rfl rfl rfl
  exact ⟨h.2.2.1, by rw [h.2.2.2.1]; rfl⟩

/-- Helper: `Stop` performs no context creation. -/
theorem Stop_ctxCreated (ap : AudioPlayer) (w : World) :
    (Stop ap w).2.ctxCreated = w.ctxCreated := by
  cases hcp : ap.cancelPlayback <;> cases hfc : ap.ffmpegCmd <;>
    simp [Stop, fireCancel, hcp, hfc]

/-- Helper: with a context already present and the pipe and process
start succeeding, `startLocked` succeeds, reuses the existing context
and creates no new one. -/
theorem startLocked_success_ctx (env : Env) (ap : AudioPlayer) (w : World)
    (cx : Nat) (hcx : ap.context = some cx) (hp : env.pipeOk = true)
    (hs : env.startOk = true) :
    (startLocked env ap w).1 = none ∧
    (startLocked env ap w).2.1.context = ap.context ∧
    (startLocked env ap w).2.2.ctxCreated = w.ctxCreated := by
  obtain ⟨ep, es, ec, ef⟩ := env
  simp only at hp hs
  subst hp; subst hs
  simp [startLocked, hcx]

/-- Helper: one Start/Stop cycle preserves the between-cycles state:
idle, holding context 0, one context creation total. -/
theorem cycle_step (env : Env) (s : AudioPlayer × World)
    (hp : env.pipeOk = true) (hs : env.startOk = true) (h : CycleInv s) :
    CycleInv (run [Op.start env, Op.stop] s) := by
  obtain ⟨hf, hpl, hcx, hct⟩ := h
  have hstart : Start env s.1 s.2 = startLocked env s.1 s.2 := by
    simp [Start, hf]
  have hsl := startLocked_success_ctx env s.1 s.2 0 hcx hp hs
  have hrun : run [Op.start env, Op.stop] s
      = Stop (Start env s.1 s.2).2.1 (Start env s.1 s.2).2.2 := rfl
  rw [hrun, hstart]
  refine ⟨by rw [Stop_fst], by rw [Stop_fst], ?_, ?_⟩
  · rw [Stop_fst]
    show (startLocked env s.1 s.2).2.1.context = some 0
    rw [hsl.2.1, hcx]
  · rw [Stop_ctxCreated, hsl.2.2, hct]

/-- Helper: the first Start/Stop cycle on a fresh controller creates
context 0 and returns to idle with exactly one creation performed. -/
theorem first_cycle (env : Env) (f : String) (sp : Float64Dec) (t : Int)
    (hp : env.pipeOk = true) (hs : env.startOk = true)
    (hc : env.newContextOk = true) :
    CycleInv (run [Op.start env, Op.stop] (NewAudioPlayer f sp t, World.init)) := by
  have hstart : Start env (NewAudioPlayer f sp t) World.init
      = startLocked env (NewAudioPlayer f sp t) World.init := by
    simp [Start, NewAudioPlayer]
  have hsl := startLocked_success_newctx env (NewAudioPlayer f sp t)
    World.init rfl hp hs hc
  have hrun : run [Op.start env, Op.stop] (NewAudioPlayer f sp t, World.init)
      = Stop (Start env (NewAudioPlayer f sp t) World.init).2.1
          (Start env (NewAudioPlayer f sp t) World.init).2.2 := rfl
  rw [hrun, hstart]
  refine ⟨by rw [Stop_fst], by rw [Stop_fst], ?_, ?_⟩
  · rw [Stop_fst]
    exact hsl.2.2.1
  · rw [Stop_ctxCreated]
    exact hsl.2.2.2

/-- Helper: the between-cycles state is preserved by any number of
further Start/Stop cycles. -/
theorem cycles_inv (env : Env) (hp : env.pipeOk = true)
    (hs : env.startOk = true) (n : Nat) (s : AudioPlayer × World)
    (h : CycleInv s) : CycleInv (run (startStopCycles env n) s) := by
  induction n generalizing s with
  | zero => exact h
  | succ n ih =>
    have hsplit : run (startStopCycles env (n + 1)) s
        = run (startStopCycles env n) (run [Op.start env, Op.stop] s) := rfl
    rw [hsplit]
    exact ih _ (cycle_step env s hp hs h)

/-- C6: across `n ≥ 2` strictly alternating Start/Stop cycles on a fresh
controller (all externals succeeding), the output context is created
exactly once — the creation counter ends at 1 — by the first `Start`,
and every later `Start` reuses it: the controller still holds context 0,
the first ever created. -/
theorem c6_context_created_once (env : Env) (f : String) (sp : Float64Dec)
    (t : Int) (n : Nat) (hn : 2 ≤ n) (hp : env.pipeOk = true)
    (hs : env.startOk = true) (hc : env.newContextOk = true) :
    (run (startStopCycles env n) (NewAudioPlayer f sp t, World.init)).2.ctxCreated
      = 1 ∧
    (run (startStopCycles env n) (NewAudioPlayer f sp t, World.init)).1.context
      = some 0 := by
  obtain ⟨m, rfl⟩ : ∃ m, n = m + 1 := ⟨n - 1, by omega⟩
  have h1 := first_cycle env f sp t hp hs hc
  have h := cycles_inv env hp hs m _ h1
  have hsplit : run (startStopCycles env (m + 1)) (NewAudioPlayer f sp t, World.init)
      = run (startStopCycles env m)
          (run [Op.start env, Op.stop] (NewAudioPlayer f sp t, World.init)) := rfl
  rw [hsplit]
  exact ⟨h.2.2.2, h.2.2.1⟩

/-- Witness for C6 at two concrete cycles. -/
theorem c6_context_created_once_witness :
    (run (startStopCycles okEnv 2) (NewAudioPlayer "song.mp3" ⟨15, 1⟩ 7,
        World.init)).2.ctxCreated = 1 ∧
    (run (startStopCycles okEnv 2) (NewAudioPlayer "song.mp3" ⟨15, 1⟩ 7,
        World.init)).1.context = some 0 :=
  c6_context_created_once okEnv "song.mp3" ⟨15, 1⟩ 7 2 (by decide) rfl rfl rfl

/-- Helper: trimming shared factors of ten preserves the denoted value
`m / 10 ^ e`. -/
theorem trimZeros_val (m : Int) (e : Nat) :
    ((trimZeros m e).1 : ℚ) / 10 ^ (trimZeros m e).2 = (m : ℚ) / 10 ^ e := by
  induction e generalizing m with
  | zero => simp [trimZeros]
  | succ e ih =>
    by_cases h : m % 10 = 0
    · obtain ⟨k, rfl⟩ := Int.dvd_of_emod_eq_zero h
      simp only [trimZeros, if_pos h]
      rw [Int.mul_ediv_cancel_left _ (by norm_num), ih k]
      push_cast
      rw [pow_succ]
      field_simp
      ring
    · simp only [trimZeros]
      rw [if_neg h]

/-- Helper: when trimming stops with a fractional part remaining, the
retained mantissa carries no further factor of ten: the decimal is
minimal. -/
theorem trimZeros_not_dvd (m : Int) (e : Nat)
    (h : (trimZeros m e).2 ≠ 0) : ¬ (10 : Int) ∣ (trimZeros m e).1 := by
  induction e generalizing m with
  | zero => simp [trimZeros] at h
  | succ e ih =>
    by_cases hm : m % 10 = 0
    · simp only [trimZeros, if_pos hm] at h ⊢
      exact ih (m / 10) h
    · simp only [trimZeros, if_neg hm]
      exact fun hd => hm (Int.emod_eq_zero_of_dvd hd)

/-- Helper: every character a natural number renders to is a decimal
digit. -/
theorem natCharsAux_digits (fuel : Nat) (n : Nat) (c : Char)
    (hc : c ∈ natCharsAux n fuel) : ∃ d, d < 10 ∧ c = Char.ofNat (48 + d) := by
  induction fuel generalizing n with
  | zero => simp [natCharsAux] at hc
  | succ fuel ih =>
    by_cases h : n < 10
    · simp [natCharsAux, h] at hc
      exact ⟨n, h, hc⟩
    · simp [natCharsAux, h] at hc
      rcases hc with hc | hc
      · exact ih _ hc
      · exact ⟨n % 10, Nat.mod_lt _ (by norm_num), hc⟩

/-- Helper: the decimal rendering of an integer contains no decimal
point. -/
theorem intDecChars_no_dot (m : Int) : '.' ∉ intDecChars m := by
  intro hm
  unfold intDecChars at hm
  rcases List.mem_append.mp hm with h1 | h2
  · by_cases h : m < 0
    · rw [if_pos h] at h1
      exact absurd (List.mem_singleton.mp h1) (by decide)
    · rw [if_neg h] at h1
      exact List.not_mem_nil _ h1
  · obtain ⟨d, hd, hcd⟩ := natCharsAux_digits _ _ _ h2
    interval_cases d <;> exact absurd hcd (by decide)

/-- Helper: the last fractional digit rendered is the units digit of the
mantissa. -/
theorem fracChars_getLast (n e : Nat) :
    (fracChars n (e + 1)).getLast? = some (Char.ofNat (48 + n % 10)) := by
  show (fracChars (n / 10) e ++ [Char.ofNat (48 + n % 10)]).getLast? = _
  rw [List.getLast?_append_of_ne_nil _ (by simp)]
  rfl

/-- Helper: if the formatted speed contains a decimal point, it does not
end in the digit zero: trailing fractional zeros are trimmed. -/
theorem formatFloat_no_trailing_zero (sp : Float64Dec)
    (h : '.' ∈ (formatFloat sp).data) :
    (formatFloat sp).data.getLast? ≠ some '0' := by
  have hdata : (formatFloat sp).data = formatFloatChars sp := rfl
  rw [hdata] at h ⊢
  unfold formatFloatChars at h ⊢
  by_cases he : (trimZeros sp.num sp.exp).2 = 0
  · rw [if_pos he] at h
    exact absurd h (intDecChars_no_dot _)
  · rw [if_neg he] at h ⊢
    obtain ⟨e', he'⟩ : ∃ e', (trimZeros sp.num sp.exp).2 = e' + 1 :=
      ⟨(trimZeros sp.num sp.exp).2 - 1, by omega⟩
    rw [he']
    have hnd := trimZeros_not_dvd sp.num sp.exp he
    have hmod : (trimZeros sp.num sp.exp).1.natAbs % 10 ≠ 0 := by
      intro h0
      apply hnd
      have h10 : ((10 : Int)).natAbs ∣ (trimZeros sp.num sp.exp).1.natAbs :=
        Nat.dvd_of_mod_eq_zero h0
      exact Int.natAbs_dvd_natAbs.mp h10
    rw [List.append_assoc, List.append_assoc,
      List.getLast?_append_of_ne_nil _ (by simp),
      List.getLast?_append_of_ne_nil _ (by simp),
      List.getLast?_append_of_ne_nil _ (by simp [fracChars]),
      fracChars_getLast]
    intro hlast
    have hchar := Option.some.inj hlast
    have hklt : (trimZeros sp.num sp.exp).1.natAbs % 10 < 10 :=
      Nat.mod_lt _ (by norm_num)
    set k := (trimZeros sp.num sp.exp).1.natAbs % 10 with hk
    clear_value k
    interval_cases k
    · exact hmod rfl
    all_goals exact absurd hchar (by decide)

/-- Helper: the configuration fields survive `Close`. -/
theorem Close_config (ap : AudioPlayer) (w : World) :
    (Close ap w).1.audioFile = ap.audioFile ∧
    (Close ap w).1.speed = ap.speed ∧
    (Close ap w).1.startTime = ap.startTime := by
  unfold Close
  cases hcx : ap.context <;> simp [hcx, Stop_fst]

/-- Helper: whenever pipe creation and process start succeed,
`startLocked` appends one launched process carrying exactly the built
ffmpeg command line. -/
theorem startLocked_procs (env : Env) (ap : AudioPlayer) (w : World)
    (hp : env.pipeOk = true) (hs : env.startOk = true) :
    (startLocked env ap w).2.2.procs
      = w.procs ++ [{ exe := env.ffmpegPath, args := ffmpegArgs ap,
                      killed := 0, waited := 0 }] := by
  obtain ⟨ep, es, ec, ef⟩ := env
  simp only at hp hs
  subst hp; subst hs
  cases hcx : ap.context <;> cases ec <;> simp [startLocked, hcx, ffmpegArgs]

/-- Helper: whenever pipe creation and process start succeed, `Start`
launches a process with the configured ffmpeg command line, appended
last. -/
theorem Start_launch (env : Env) (ap : AudioPlayer) (w : World)
    (hp : env.pipeOk = true) (hs : env.startOk = true) :
    ∃ l, (Start env ap w).2.2.procs
      = l ++ [{ exe := env.ffmpegPath, args := ffmpegArgs ap,
                killed := 0, waited := 0 }] := by
  by_cases hA : ap.ffmpegCmd.isSome = true
  · refine ⟨(Close ap w).2.procs, ?_⟩
    have h := startLocked_procs env (Close ap w).1 (Close ap w).2 hp hs
    have hargs : ffmpegArgs (Close ap w).1 = ffmpegArgs ap := by
      obtain ⟨h1, h2, h3⟩ := Close_config ap w
      unfold ffmpegArgs
      rw [h1, h2, h3]
    rw [hargs] at h
    simp [Start, hA, h]
  · refine ⟨w.procs, ?_⟩
    have h := startLocked_procs env ap w hp hs
    simp [Start, hA, h]

/-- C5: whenever `Start` reaches the launch (pipe creation and process
start succeed), the decoder executable is invoked with exactly: `-ss`
carrying the start offset in decimal seconds, `-i` carrying the source
path, an `atempo=` audio filter carrying the speed as a decimal,
`-f s16le` (signed 16-bit little-endian PCM), `-ar 44100`, `-ac 2`, and
output directed to standard output (`pipe:1`).  The remaining conjuncts
state minimality of the speed decimal: trimming preserves the value,
the retained mantissa has no factor of ten left while a fraction
remains, and the rendered decimal never ends in `'0'` when it contains
a decimal point. -/
theorem c5_ffmpeg_invocation (env : Env) (ap : AudioPlayer) (w : World)
    (hp : env.pipeOk = true) (hs : env.startOk = true) :
    (∃ r, (Start env ap w).2.2.procs.getLast? = some r ∧
      r.exe = env.ffmpegPath ∧
      r.args = ["-ss", itoa ap.startTime,
                "-i", ap.audioFile,
                "-filter:a", "atempo=" ++ formatFloat ap.speed,
                "-f", "s16le", "-ar", "44100", "-ac", "2", "pipe:1"]) ∧
    ((trimZeros ap.speed.num ap.speed.exp).1 : ℚ)
        / 10 ^ (trimZeros ap.speed.num ap.speed.exp).2 = ap.speed.val ∧
    ((trimZeros ap.speed.num ap.speed.exp).2 ≠ 0 →
      ¬ (10 : Int) ∣ (trimZeros ap.speed.num ap.speed.exp).1) ∧
    ('.' ∈ (formatFloat ap.speed).data →
      (formatFloat ap.speed).data.getLast? ≠ some '0') := by
  obtain ⟨l, hl⟩ := Start_launch env ap w hp hs
  refine ⟨⟨{ exe := env.ffmpegPath, args := ffmpegArgs ap,
             killed := 0, waited := 0 }, ?_, rfl, rfl⟩, ?_,
    trimZeros_not_dvd _ _, formatFloat_no_trailing_zero ap.speed⟩
  · rw [hl, List.getLast?_append_of_ne_nil _ (by simp)]
    rfl
  · rw [trimZeros_val]
    rfl

/-- Witness for C5 at the concrete configuration (file "song.mp3",
speed 1.5, offset 7): the launched command line, fully evaluated. -/
theorem c5_ffmpeg_invocation_witness :
    ∃ r, (Start okEnv ap0 World.init).2.2.procs.getLast? = some r ∧
      r.exe = "ffmpeg" ∧
      r.args = ["-ss", "7", "-i", "song.mp3", "-filter:a", "atempo=1.5",
                "-f", "s16le", "-ar", "44100", "-ac", "2", "pipe:1"] := by
  obtain ⟨⟨r, h1, h2, h3⟩, -, -, -⟩ :=
    c5_ffmpeg_invocation okEnv ap0 World.init rfl rfl
  exact ⟨r, h1, h2, by rw [h3]; decide⟩

/-- C7: speed values outside [0.5, 2.0] are not rejected at
construction — `NewAudioPlayer` is total and stores the speed verbatim —
and the stored speed reaches the decoder invocation verbatim: the
launched command line carries `atempo=` followed by the decimal
rendering of exactly that speed. -/
theorem c7_out_of_range_speed_passed_verbatim (f : String) (sp : Float64Dec)
    (t : Int) (hout : outOfRange sp) (env : Env) (w : World)
    (hp : env.pipeOk = true) (hs : env.startOk = true) :
    (NewAudioPlayer f sp t).speed = sp ∧
    (∃ r, (Start env (NewAudioPlayer f sp t) w).2.2.procs.getLast? = some r ∧
      "atempo=" ++ formatFloat sp ∈ r.args) := by
  obtain ⟨l, hl⟩ := Start_launch env (NewAudioPlayer f sp t) w hp hs
  refine ⟨rfl, ⟨{ exe := env.ffmpegPath,
                  args := ffmpegArgs (NewAudioPlayer f sp t),
                  killed := 0, waited := 0 }, ?_, ?_⟩⟩
  · rw [hl, List.getLast?_append_of_ne_nil _ (by simp)]
    rfl
  · show "atempo=" ++ formatFloat sp ∈ ffmpegArgs (NewAudioPlayer f sp t)
    unfold ffmpegArgs
    simp [NewAudioPlayer]

/-- Witness for C7 at speed 3 (above the documented upper bound 2.0). -/
theorem c7_out_of_range_speed_passed_verbatim_witness :
    (NewAudioPlayer "song.mp3" ⟨3, 0⟩ 0).speed = (⟨3, 0⟩ : Float64Dec) ∧
    (∃ r, (Start okEnv (NewAudioPlayer "song.mp3" ⟨3, 0⟩ 0) World.init).2.2.procs.getLast?
        = some r ∧ "atempo=" ++ formatFloat ⟨3, 0⟩ ∈ r.args) :=
  c7_out_of_range_speed_passed_verbatim "song.mp3" ⟨3, 0⟩ 0
    (Or.inr (by norm_num [outOfRange, Float64Dec.val])) okEnv World.init rfl rfl

/-- C4: a `Read` on the cancellable stream adapter returns `(0, error)`
with the underlying stream untouched when the cancel token has fired, and
otherwise delegates to the underlying stream, returning its byte count,
error and follow-on state unchanged. -/
theorem c4_reader_cancellation {σ : Type} (rd : σ → (Nat × Option ReadErr) × σ)
    (fired : Bool) (s : σ) :
    (fired = true → readerCtxRead rd fired s = ((0, some .contextCanceled), s)) ∧
    (fired = false → readerCtxRead rd fired s = rd s) := by
  constructor <;> intro h <;> simp [readerCtxRead, h]

/-- Witness for C4 at a concrete underlying stream, in both the fired and
the unfired case. -/
theorem c4_reader_cancellation_witness :
    readerCtxRead (fun n : Nat => ((n, none), n + 1)) true 5
        = ((0, some .contextCanceled), 5) ∧
    readerCtxRead (fun n : Nat => ((n, none), n + 1)) false 5
        = ((5, none), 6) :=
  ⟨(c4_reader_cancellation (fun n : Nat => ((n, none), n + 1)) true 5).1 rfl,
   (c4_reader_cancellation (fun n : Nat => ((n, none), n + 1)) false 5).2 rfl⟩

/-- C8: `Stop` on an idle controller (no decoder process handle and no
player) leaves the controller state unchanged, and `Stop` is idempotent
on controller state: a second `Stop` right after a first changes
nothing. -/
theorem c8_stop_idle_noop (ap : AudioPlayer) (w w' : World) :
    (ap.ffmpegCmd = none → ap.player = none → (Stop ap w).1 = ap) ∧
    (Stop (Stop ap w).1 w').1 = (Stop ap w).1 := by
  obtain ⟨cp, fc, pl, cx, af, sp, st⟩ := ap
  constructor
  · intro hf hp
    simp only at hf hp
    subst hf; subst hp
    cases cp <;> rfl
  · cases cp <;> cases fc <;> cases pl <;> rfl

/-- Witness for C8: a freshly constructed controller is idle and `Stop`
leaves it unchanged. -/
theorem c8_stop_idle_noop_witness :
    (Stop ap0 World.init).1 = ap0 ∧
    (Stop (Stop ap0 World.init).1 World.init).1 = (Stop ap0 World.init).1 :=
  ⟨(c8_stop_idle_noop ap0 World.init World.init).1 rfl rfl,
   (c8_stop_idle_noop ap0 World.init World.init).2⟩

/-- C10: when a cancellation function is stored, `Stop` clears exactly
the process handle and the player handle — the cancellation function,
the output context and the configuration are untouched — it invokes the
cancellation function, and every later `Stop` or `Close` invokes the
retained cancellation function again. -/
theorem c10_stop_retains_cancel (ap : AudioPlayer) (w : World) (c : Nat)
    (hc : ap.cancelPlayback = some c) :
    (Stop ap w).1 = { ap with ffmpegCmd := none, player := none } ∧
    (Stop ap w).2.cancelCalls = w.cancelCalls ++ [c] ∧
    (∀ w', (Stop (Stop ap w).1 w').2.cancelCalls = w'.cancelCalls ++ [c]) ∧
    (∀ w', (Close (Stop ap w).1 w').2.cancelCalls = w'.cancelCalls ++ [c]) := by
  obtain ⟨cp, fc, pl, cx, af, sp, st⟩ := ap
  simp only at hc
  subst hc
  refine ⟨?_, ?_, ?_, ?_⟩
  · cases fc <;> cases pl <;> rfl
  · cases fc <;> cases pl <;> rfl
  · intro w'; cases fc <;> cases pl <;> rfl
  · intro w'; cases fc <;> cases pl <;> cases cx <;> rfl

/-- Witness for C10 on a controller holding cancellation function 0. -/
theorem c10_stop_retains_cancel_witness :
    (Stop { ap0 with cancelPlayback := some 0 } World.init).1
        = { ap0 with cancelPlayback := some 0, ffmpegCmd := none, player := none } ∧
    (Stop { ap0 with cancelPlayback := some 0 } World.init).2.cancelCalls
        = World.init.cancelCalls ++ [0] := by
  have h := c10_stop_retains_cancel { ap0 with cancelPlayback := some 0 }
    World.init 0 rfl
  exact ⟨h.1, h.2.1⟩

end Audioplayer
